import Mathlib

/-
  Verification of the smart-door-esp32 core against its design document.

  Shallow embedding of the two source files:
    * app.py        — bounded logs, recognition pipeline, manual grant,
                      SSE broadcast hub, upload endpoint.
    * telegram_bot.py — command-relay listener (cursor, dispatch, config).

  Python's mutable lists guarded by locks become pure Lean lists with
  explicit state passing; the exceptions that the code catches become
  `Except` values; external calls (DeepFace, requests, ESP32) become
  explicit outcome parameters, as the design document treats them as
  opaque collaborators.
-/

set_option maxHeartbeats 1000000

namespace SmartDoor

/-! ## Bounded event log (app.py: AccessRecordManager.add_access_record /
    add_notification).  Python: `lst.insert(0, e); if len(lst) > cap: lst.pop()`. -/

def insertFront {α : Type} (cap : Nat) (log : List α) (e : α) : List α :=
  let l := e :: log
  if l.length > cap then l.dropLast else l

/-- AccessRecord, the dict built by AccessRecordManager.create_access_record;
    `manual_grant_timestamp` is absent (`none`) until a manual override sets it. -/
structure AccessRecord where
  id : String
  timestamp : String
  filename : String
  image_url : String
  access_granted : Bool
  status : String
  method : String
  recognized_person : Option String
  recognition_result : String
  manual_grant_timestamp : Option String := none
  deriving Repr, DecidableEq

/-- Notification, the dict built by AccessRecordManager.create_notification. -/
structure Notification where
  id : String
  timestamp : String
  filename : String
  image_url : String
  access_granted : Bool
  status : String
  recognition_result : String
  method : String
  deriving Repr, DecidableEq

def add_access_record (history : List AccessRecord) (record : AccessRecord) :
    List AccessRecord :=
  insertFront 50 history record

def add_notification (notifs : List Notification) (n : Notification) :
    List Notification :=
  insertFront 20 notifs n

/-! Helper lemmas for the bounded-log characterisation. -/

theorem take_append_take {α : Type} (xs ys : List α) (n m : Nat) (h : n ≤ m) :
    (xs ++ ys.take m).take n = (xs ++ ys).take n := by
  induction xs generalizing n with
  | nil =>
    simp only [List.nil_append, List.take_take]
    rw [Nat.min_eq_left h]
  | cons x xs ih =>
    cases n with
    | zero => simp
    | succ n =>
      simp only [List.cons_append, List.take_succ_cons]
      rw [ih n (Nat.le_of_succ_le h)]

theorem insertFront_eq_take {α : Type} (cap : Nat) (log : List α) (e : α)
    (h : log.length ≤ cap) : insertFront cap log e = (e :: log).take cap := by
  unfold insertFront
  simp only [List.length_cons]
  by_cases hgt : log.length + 1 > cap
  · have hcap : log.length = cap := Nat.le_antisymm h (Nat.lt_succ_iff.mp hgt)
    rw [if_pos hgt, List.dropLast_eq_take]
    simp [hcap]
  · rw [if_neg hgt]
    have : cap ≥ log.length + 1 := Nat.le_of_not_lt hgt
    rw [List.take_of_length_le (by simpa using this)]

theorem insertFront_length_le {α : Type} (cap : Nat) (log : List α) (e : α)
    (h : log.length ≤ cap) : (insertFront cap log e).length ≤ cap := by
  rw [insertFront_eq_take cap log e h]
  exact (List.length_take _ _).trans_le (Nat.min_le_left _ _)

theorem foldl_insertFront {α : Type} (cap : Nat) :
    ∀ (es : List α) (l : List α), l.length ≤ cap →
      es.foldl (insertFront cap) l = (es.reverse ++ l).take cap := by
  intro es
  induction es with
  | nil =>
    intro l hl
    simp [List.take_of_length_le hl]
  | cons e es ih =>
    intro l hl
    simp only [List.foldl_cons, List.reverse_cons, List.append_assoc,
      List.singleton_append]
    rw [ih (insertFront cap l e) (insertFront_length_le cap l e hl),
      insertFront_eq_take cap l e hl, take_append_take _ _ cap cap le_rfl]

theorem foldl_add_access_record (rs : List AccessRecord) :
    rs.foldl add_access_record [] = rs.reverse.take 50 := by
  have h := foldl_insertFront 50 rs [] (by simp)
  simpa using h

theorem foldl_add_notification (ns : List Notification) :
    ns.foldl add_notification [] = ns.reverse.take 20 := by
  have h := foldl_insertFront 20 ns [] (by simp)
  simpa using h

/-- C2: starting from an empty log, any sequence of insertions leaves the
    access log with at most 50 entries and the notifications log with at most
    20; the resulting log is exactly the reverse of the insertion sequence
    truncated to capacity (newest first, strict insertion order, oldest
    evicted); and an insertion into a full log drops exactly the last
    (oldest) element. -/
theorem bounded_logs_capacity_order :
    (∀ (rs : List AccessRecord),
        rs.foldl add_access_record [] = rs.reverse.take 50
        ∧ (rs.foldl add_access_record []).length ≤ 50)
    ∧ (∀ (ns : List Notification),
        ns.foldl add_notification [] = ns.reverse.take 20
        ∧ (ns.foldl add_notification []).length ≤ 20)
    ∧ (∀ (log : List AccessRecord) (r : AccessRecord), log.length = 50 →
        add_access_record log r = (r :: log).dropLast)
    ∧ (∀ (log : List Notification) (n : Notification), log.length = 20 →
        add_notification log n = (n :: log).dropLast) := by
  refine ⟨?_, ?_, ?_, ?_⟩
  · intro rs
    refine ⟨foldl_add_access_record rs, ?_⟩
    rw [foldl_add_access_record rs]
    exact (List.length_take _ _).trans_le (Nat.min_le_left _ _)
  · intro ns
    refine ⟨foldl_add_notification ns, ?_⟩
    rw [foldl_add_notification ns]
    exact (List.length_take _ _).trans_le (Nat.min_le_left _ _)
  · intro log r h
    unfold add_access_record insertFront
    simp [h]
  · intro log n h
    unfold add_notification insertFront
    simp [h]

def sampleRecord : AccessRecord :=
  { id := "id-1", timestamp := "2024-01-01T00:00:00", filename := "visitor_1.jpg",
    image_url := "/uploads/visitor_1.jpg", access_granted := false,
    status := "denied", method := "automatic", recognized_person := none,
    recognition_result := "Persoana necunoscuta" }

def sampleNotification : Notification :=
  { id := "nid-1", timestamp := "2024-01-01T00:00:00", filename := "visitor_1.jpg",
    image_url := "/uploads/visitor_1.jpg", access_granted := false,
    status := "denied", recognition_result := "Persoana necunoscuta",
    method := "automatic" }

theorem bounded_logs_capacity_order_witness :
    add_access_record (List.replicate 50 sampleRecord) sampleRecord
      = (sampleRecord :: List.replicate 50 sampleRecord).dropLast
    ∧ add_notification (List.replicate 20 sampleNotification) sampleNotification
      = (sampleNotification :: List.replicate 20 sampleNotification).dropLast := by
  constructor
  · exact bounded_logs_capacity_order.2.2.1 _ _ (by simp)
  · exact bounded_logs_capacity_order.2.2.2 _ _ (by simp)

/-! ## Manual-grant override (app.py: grant_access route).
    The two scans "for record in access_history: if match: mutate; break"
    become a generic first-match update. -/

def updateFirst {α : Type} (p : α → Bool) (f : α → α) : List α → List α × Bool
  | [] => ([], false)
  | x :: xs =>
    if p x then (f x :: xs, true)
    else
      let r := updateFirst p f xs
      (x :: r.1, r.2)

theorem updateFirst_of_forall_not {α : Type} (p : α → Bool) (f : α → α) :
    ∀ l : List α, (∀ x ∈ l, p x = false) → updateFirst p f l = (l, false) := by
  intro l h
  induction l with
  | nil => rfl
  | cons x xs ih =>
    have hx := h x (by simp)
    simp [updateFirst, hx, ih (fun y hy => h y (by simp [hy]))]

theorem updateFirst_snd_any {α : Type} (p : α → Bool) (f : α → α) :
    ∀ l : List α, (updateFirst p f l).2 = l.any p := by
  intro l
  induction l with
  | nil => rfl
  | cons x xs ih =>
    by_cases hx : p x = true
    · simp [updateFirst, hx]
    · simp only [Bool.not_eq_true] at hx
      simp [updateFirst, hx, ih]

theorem updateFirst_first_match {α : Type} (p : α → Bool) (f : α → α) :
    ∀ (pre : List α) (r : α) (post : List α),
      (∀ x ∈ pre, p x = false) → p r = true →
      updateFirst p f (pre ++ r :: post) = (pre ++ f r :: post, true) := by
  intro pre
  induction pre with
  | nil =>
    intro r post _ hr
    simp [updateFirst, hr]
  | cons x xs ih =>
    intro r post hpre hr
    have hx := hpre x (by simp)
    simp [updateFirst, hx, ih r post (fun y hy => hpre y (by simp [hy])) hr]

/-- Mutation applied to the first access record whose filename matches
    (grant_access, first loop body). -/
def grantRecord (now : String) (r : AccessRecord) : AccessRecord :=
  { r with
    access_granted := true
    status := "granted"
    method := r.method ++ "_manual_override"
    recognition_result := "Acces permis manual"
    manual_grant_timestamp := some now }

/-- Mutation applied to the first notification whose filename matches
    (grant_access, second loop body). -/
def grantNotification (n : Notification) : Notification :=
  { n with
    access_granted := true
    status := "granted"
    recognition_result := "Acces permis manual" }

/-- grant_access: returns (new history, new notifications,
    record_updated flag, notification_updated flag). -/
def grant_access (now : String) (history : List AccessRecord)
    (notifs : List Notification) (filename : String) :
    List AccessRecord × List Notification × Bool × Bool :=
  let recRes := updateFirst (fun r => r.filename == filename) (grantRecord now) history
  let notifRes := updateFirst (fun n => n.filename == filename) grantNotification notifs
  (recRes.1, notifRes.1, recRes.2, notifRes.2)

/-- C4: a manual-grant override mutates at most the first matching access
    record and the first matching notification (setting granted/status,
    appending the override tag to method, stamping the override time, and
    relabelling the notification); the record and notification outcomes are
    two independent flags, each true exactly when its log has a match; and
    with no matching entry both logs are returned unchanged with both flags
    false. -/
theorem grant_access_spec :
    (∀ (now : String) (hist : List AccessRecord) (notifs : List Notification)
        (fn : String),
        (grant_access now hist notifs fn).2.2.1
            = hist.any (fun r => r.filename == fn)
        ∧ (grant_access now hist notifs fn).2.2.2
            = notifs.any (fun n => n.filename == fn))
    ∧ (∀ (now : String) (hist : List AccessRecord) (notifs : List Notification)
        (fn : String),
        (∀ r ∈ hist, r.filename ≠ fn) → (∀ n ∈ notifs, n.filename ≠ fn) →
        grant_access now hist notifs fn = (hist, notifs, false, false))
    ∧ (∀ (now : String) (pre post : List AccessRecord) (r : AccessRecord)
        (notifs : List Notification) (fn : String),
        (∀ x ∈ pre, x.filename ≠ fn) → r.filename = fn →
        (grant_access now (pre ++ r :: post) notifs fn).1
            = pre ++ grantRecord now r :: post)
    ∧ (∀ (now : String) (hist : List AccessRecord) (pre post : List Notification)
        (n : Notification) (fn : String),
        (∀ x ∈ pre, x.filename ≠ fn) → n.filename = fn →
        (grant_access now hist (pre ++ n :: post) fn).2.1
            = pre ++ grantNotification n :: post)
    ∧ (∀ (now : String) (r : AccessRecord),
        (grantRecord now r).access_granted = true
        ∧ (grantRecord now r).status = "granted"
        ∧ (grantRecord now r).method = r.method ++ "_manual_override"
        ∧ (grantRecord now r).recognition_result = "Acces permis manual"
        ∧ (grantRecord now r).manual_grant_timestamp = some now)
    ∧ (∀ (n : Notification),
        (grantNotification n).access_granted = true
        ∧ (grantNotification n).status = "granted"
        ∧ (grantNotification n).recognition_result = "Acces permis manual") := by
  refine ⟨?_, ?_, ?_, ?_, ?_, ?_⟩
  · intro now hist notifs fn
    exact ⟨updateFirst_snd_any _ _ hist, updateFirst_snd_any _ _ notifs⟩
  · intro now hist notifs fn hh hn
    have h1 := updateFirst_of_forall_not (fun r => r.filename == fn)
      (grantRecord now) hist (fun x hx => by simpa using hh x hx)
    have h2 := updateFirst_of_forall_not (fun n => n.filename == fn)
      grantNotification notifs (fun x hx => by simpa using hn x hx)
    simp [grant_access, h1, h2]
  · intro now pre post r notifs fn hpre hr
    have h1 := updateFirst_first_match (fun x => x.filename == fn)
      (grantRecord now) pre r post (fun x hx => by simpa using hpre x hx)
      (by simpa using hr)
    simp [grant_access, h1]
  · intro now hist pre post n fn hpre hn
    have h2 := updateFirst_first_match (fun x => x.filename == fn)
      grantNotification pre n post (fun x hx => by simpa using hpre x hx)
      (by simpa using hn)
    simp [grant_access, h2]
  · intro now r
    exact ⟨rfl, rfl, rfl, rfl, rfl⟩
  · intro n
    exact ⟨rfl, rfl, rfl⟩

theorem grant_access_spec_witness :
    (grant_access "2024-05-05T10:00:00" ([] ++ sampleRecord :: [])
        [sampleNotification] "visitor_1.jpg").1
      = [] ++ grantRecord "2024-05-05T10:00:00" sampleRecord :: []
    ∧ grant_access "2024-05-05T10:00:00" [sampleRecord] [sampleNotification]
        "other.jpg"
      = ([sampleRecord], [sampleNotification], false, false) := by
  constructor
  · exact grant_access_spec.2.2.1 "2024-05-05T10:00:00" [] [] sampleRecord
      [sampleNotification] "visitor_1.jpg" (by simp) (by decide)
  · exact grant_access_spec.2.1 "2024-05-05T10:00:00" [sampleRecord]
      [sampleNotification] "other.jpg" (by decide) (by decide)

/-! ## Telegram command-relay listener (telegram_bot.py: TelegramBot).
    The mutable bot object becomes an explicit state; `door_controller` (a
    callback that either returns a result dict or raises) is determinised
    as the outcome it would produce when invoked, `none` meaning no
    callback was injected; the HTTP transport of send_message is the
    boolean parameter `httpOk`. -/

structure DoorResult where
  success : Bool
  message : String
  deriving Repr, DecidableEq

structure BotState where
  bot_token : String
  chat_id : String
  enabled : Bool
  command_offset : Nat
  running : Bool
  threadAlive : Bool
  door_controller : Option (Except String DoorResult)
  deriving Repr

/-- is_configured: `bool(self.bot_token and self.chat_id)`. -/
def is_configured (s : BotState) : Bool :=
  (s.bot_token != "") && (s.chat_id != "")

/-- send_message: returns False when disabled or unconfigured, otherwise the
    outcome of the HTTP POST (`httpOk`); message formatting is out of scope. -/
def send_message (s : BotState) (httpOk : Bool) : Bool :=
  if !s.enabled || !(is_configured s) then false
  else httpOk

/-- Python str.lower, character-wise. -/
def lowerStr (s : String) : String := String.mk (s.data.map Char.toLower)

/-- Python str.strip: drop whitespace from both ends. -/
def stripStr (s : String) : String :=
  String.mk (((s.data.dropWhile Char.isWhitespace).reverse.dropWhile
    Char.isWhitespace).reverse)

/-- Python text.startswith("/"). -/
def startsSlash (s : String) : Bool :=
  match s.data with
  | c :: _ => c = '/'
  | [] => false

/-- Replies of handle_command, one constructor per return site; the literal
    (bilingual) message texts are chat-formatting content, out of scope per
    the design document, so each reply carries only the data it interpolates. -/
inductive Reply where
  | openAck
  | openFail (message : String)
  | openTechError (message : String)
  | openUnavailable
  | statusInfo (enabled : Bool) (configured : Bool)
  | helpInfo
  | settingsInfo (enabled : Bool) (chat_id : String) (configured : Bool)
  | unknownCommand
  deriving Repr, DecidableEq

/-- handle_command: lowercases and trims the command, then branches; the
    second component counts invocations of the injected door controller. -/
def handle_command (s : BotState) (command : String) : Reply × Nat :=
  let command := stripStr (lowerStr command)
  if command = "/open" then
    match s.door_controller with
    | some outcome =>
      match outcome with
      | Except.ok r => if r.success then (.openAck, 1) else (.openFail r.message, 1)
      | Except.error e => (.openTechError e, 1)
    | none => (.openUnavailable, 0)
  else if command = "/status" then (.statusInfo s.enabled (is_configured s), 0)
  else if command = "/help" then (.helpInfo, 0)
  else if command = "/settings" then
    (.settingsInfo s.enabled s.chat_id (is_configured s), 0)
  else (.unknownCommand, 0)

structure TMessage where
  chat_id : String
  text : String
  deriving Repr, DecidableEq

structure TUpdate where
  update_id : Nat
  message : Option TMessage
  deriving Repr, DecidableEq

/-- Result of handling one update inside _command_listener_worker:
    post state, number of door-controller invocations, and the replies
    handed to send_message paired with their delivery outcome. -/
structure StepOut where
  state : BotState
  invocations : Nat
  sent : List (Reply × Bool)
  deriving Repr

/-- One iteration of the per-update loop in _command_listener_worker:
    first `self.command_offset = update["update_id"] + 1`, then the
    authorization check, then dispatch of "/"-prefixed text. -/
def processUpdate (httpOk : Bool) (s : BotState) (u : TUpdate) : StepOut :=
  let s := { s with command_offset := u.update_id + 1 }
  match u.message with
  | none => ⟨s, 0, []⟩
  | some m =>
    if m.chat_id = s.chat_id then
      if startsSlash m.text then
        let hc := handle_command s m.text
        ⟨s, hc.2, [(hc.1, send_message s httpOk)]⟩
      else ⟨s, 0, []⟩
    else ⟨s, 0, []⟩

/-- Processing of one successfully fetched batch: the final state together
    with the trace of (cursor value in force while the update was being
    processed, update) pairs, in processing order. -/
def runBatch (httpOk : Bool) (s : BotState) : List TUpdate → BotState × List (Nat × TUpdate)
  | [] => (s, [])
  | u :: us =>
    let out := processUpdate httpOk s u
    let rest := runBatch httpOk out.state us
    (rest.1, (out.state.command_offset, u) :: rest.2)

/-- A run of the listener loop: each element is the batch returned by one
    successful poll (failed polls leave the state untouched in the code, so
    they are absent here). -/
def runPolls (httpOk : Bool) (s : BotState) : List (List TUpdate) → BotState
  | [] => s
  | b :: bs => runPolls httpOk (runBatch httpOk s b).1 bs

/-- A batch is well-formed for cursor `c` when the command source honours
    its contract: ids at or beyond the requested offset, strictly increasing. -/
def validBatch (c : Nat) (us : List TUpdate) : Prop :=
  (∀ u ∈ us, c ≤ u.update_id)
  ∧ us.Pairwise (fun a b => a.update_id < b.update_id)

/-- A whole run is well-formed when every successive batch is well-formed
    for the cursor in force when it was fetched. -/
def validRun (httpOk : Bool) (s : BotState) : List (List TUpdate) → Prop
  | [] => True
  | b :: bs => validBatch s.command_offset b ∧ validRun httpOk (runBatch httpOk s b).1 bs

theorem processUpdate_state (httpOk : Bool) (s : BotState) (u : TUpdate) :
    (processUpdate httpOk s u).state
      = { s with command_offset := u.update_id + 1 } := by
  unfold processUpdate
  cases u.message with
  | none => rfl
  | some m =>
    simp only
    split
    · split
      · rfl
      · rfl
    · rfl

theorem runBatch_trace (httpOk : Bool) :
    ∀ (us : List TUpdate) (s : BotState),
      ∀ p ∈ (runBatch httpOk s us).2, p.1 = p.2.update_id + 1 := by
  intro us
  induction us with
  | nil => intro s p hp; simp [runBatch] at hp
  | cons u us ih =>
    intro s p hp
    simp only [runBatch, List.mem_cons] at hp
    rcases hp with hp | hp
    · subst hp
      simp [processUpdate_state]
    · exact ih _ p hp

theorem runBatch_fst (httpOk : Bool) :
    ∀ (us : List TUpdate) (s : BotState),
      (runBatch httpOk s us).1
        = { s with command_offset :=
              us.foldl (fun _ u => u.update_id + 1) s.command_offset } := by
  intro us
  induction us with
  | nil => intro s; rfl
  | cons u us ih =>
    intro s
    simp only [runBatch, processUpdate_state, ih, List.foldl_cons]

theorem runBatch_mono (httpOk : Bool) :
    ∀ (us : List TUpdate) (s : BotState), validBatch s.command_offset us →
      s.command_offset ≤ (runBatch httpOk s us).1.command_offset
      ∧ List.Chain' (· ≤ ·)
          (s.command_offset :: (runBatch httpOk s us).2.map Prod.fst) := by
  intro us
  induction us with
  | nil =>
    intro s _
    exact ⟨le_rfl, List.chain'_singleton _⟩
  | cons u us ih =>
    intro s hv
    obtain ⟨hge, hpw⟩ := hv
    have hcu : s.command_offset ≤ u.update_id := hge u (by simp)
    have hnextv : validBatch (u.update_id + 1) us := by
      refine ⟨?_, (List.pairwise_cons.mp hpw).2⟩
      intro b hb
      exact Nat.succ_le_of_lt ((List.pairwise_cons.mp hpw).1 b hb)
    have hstate := processUpdate_state httpOk s u
    have ihr := ih { s with command_offset := u.update_id + 1 } hnextv
    constructor
    · calc s.command_offset ≤ u.update_id + 1 := Nat.le_succ_of_le hcu
        _ ≤ _ := by
          have := ihr.1
          simpa [runBatch, hstate] using this
    · simp only [runBatch, hstate, List.map_cons]
      rw [List.chain'_cons]
      refine ⟨Nat.le_succ_of_le hcu, ?_⟩
      have := ihr.2
      simpa using this

theorem runPolls_mono (httpOk : Bool) :
    ∀ (bs : List (List TUpdate)) (s : BotState), validRun httpOk s bs →
      s.command_offset ≤ (runPolls httpOk s bs).command_offset := by
  intro bs
  induction bs with
  | nil => intro s _; exact le_rfl
  | cons b bs ih =>
    intro s hv
    exact le_trans ((runBatch_mono httpOk b s hv.1).1)
      (ih (runBatch httpOk s b).1 hv.2)

/-- C1: while handling a successfully fetched batch the listener advances the
    cursor to update-id + 1 before processing each update (the cursor in
    force during processing is exactly id + 1); after a batch whose last
    update has id n the cursor equals n + 1 (in particular 43 after id 42);
    and over any run of well-formed polls the cursor never decreases, both
    step to step within a batch and across whole polls. -/
theorem command_cursor_spec :
    (∀ (httpOk : Bool) (s : BotState) (us : List TUpdate),
        ∀ p ∈ (runBatch httpOk s us).2, p.1 = p.2.update_id + 1)
    ∧ (∀ (httpOk : Bool) (s : BotState) (pre : List TUpdate) (u : TUpdate),
        (runBatch httpOk s (pre ++ [u])).1.command_offset = u.update_id + 1)
    ∧ (∀ (httpOk : Bool) (s : BotState) (us : List TUpdate),
        validBatch s.command_offset us →
        s.command_offset ≤ (runBatch httpOk s us).1.command_offset
        ∧ List.Chain' (· ≤ ·)
            (s.command_offset :: (runBatch httpOk s us).2.map Prod.fst))
    ∧ (∀ (httpOk : Bool) (s : BotState) (bs : List (List TUpdate)),
        validRun httpOk s bs →
        s.command_offset ≤ (runPolls httpOk s bs).command_offset) := by
  refine ⟨?_, ?_, ?_, ?_⟩
  · intro httpOk s us
    exact runBatch_trace httpOk us s
  · intro httpOk s pre u
    rw [runBatch_fst]
    simp
  · intro httpOk s us hv
    exact runBatch_mono httpOk us s hv
  · intro httpOk s bs hv
    exact runPolls_mono httpOk bs s hv

def wUpdate (i : Nat) : TUpdate := { update_id := i, message := none }

def wBot : BotState :=
  { bot_token := "token", chat_id := "7", enabled := true,
    command_offset := 40, running := true, threadAlive := true,
    door_controller := none }

theorem command_cursor_spec_witness :
    (runBatch true wBot ([wUpdate 41] ++ [wUpdate 42])).1.command_offset = 42 + 1
    ∧ 40 ≤ (runBatch true wBot [wUpdate 41, wUpdate 42]).1.command_offset
    ∧ 40 ≤ (runPolls true wBot [[wUpdate 41, wUpdate 42]]).command_offset := by
  have hvb : validBatch wBot.command_offset [wUpdate 41, wUpdate 42] :=
    ⟨by decide, by decide⟩
  refine ⟨?_, ?_, ?_⟩
  · exact command_cursor_spec.2.1 true wBot [wUpdate 41] (wUpdate 42)
  · exact (command_cursor_spec.2.2.1 true wBot [wUpdate 41, wUpdate 42] hvb).1
  · exact command_cursor_spec.2.2.2 true wBot [[wUpdate 41, wUpdate 42]]
      ⟨hvb, trivial⟩

theorem handle_command_open_snd (s : BotState) (dr : Except String DoorResult)
    (h : s.door_controller = some dr) : (handle_command s "/open").2 = 1 := by
  have e : stripStr (lowerStr "/open") = "/open" := by decide
  simp only [handle_command, e, if_true, eq_self_iff_true, h]
  cases dr with
  | ok r =>
    by_cases hs : r.success = true
    · simp [hs]
    · simp only [Bool.not_eq_true] at hs
      simp [hs]
  | error msg => simp

theorem processUpdate_open_auth (httpOk : Bool) (s : BotState) (u : TUpdate)
    (m : TMessage) (dr : Except String DoorResult)
    (hm : u.message = some m) (hchat : m.chat_id = s.chat_id)
    (htext : m.text = "/open") (hdc : s.door_controller = some dr) :
    (processUpdate httpOk s u).invocations = 1
    ∧ (processUpdate httpOk s u).sent.length = 1 := by
  unfold processUpdate
  rw [hm]
  simp only
  rw [if_pos (show m.chat_id = _ from hchat)]
  rw [if_pos (show startsSlash m.text = true by rw [htext]; decide)]
  simp only [htext]
  constructor
  · exact handle_command_open_snd _ dr hdc
  · simp

theorem processUpdate_unauthorized (httpOk : Bool) (s : BotState) (u : TUpdate)
    (m : TMessage) (hm : u.message = some m) (hchat : m.chat_id ≠ s.chat_id) :
    (processUpdate httpOk s u).invocations = 0
    ∧ (processUpdate httpOk s u).sent = []
    ∧ (processUpdate httpOk s u).state
        = { s with command_offset := u.update_id + 1 } := by
  unfold processUpdate
  rw [hm]
  simp only
  rw [if_neg (show ¬ m.chat_id = _ from hchat)]
  exact ⟨rfl, rfl, rfl⟩

/-- C5: a fetched update carrying the /open text from the configured
    authorized chat invokes the injected door-control callback exactly once
    and hands exactly one textual reply to the message sender; an update from
    any other chat identity causes zero callback invocations, no reply, and
    no effect beyond the cursor advance (silently ignored, not an error). -/
theorem open_command_authorization :
    (∀ (httpOk : Bool) (s : BotState) (u : TUpdate) (m : TMessage)
        (dr : Except String DoorResult),
        u.message = some m → m.chat_id = s.chat_id → m.text = "/open" →
        s.door_controller = some dr →
        (processUpdate httpOk s u).invocations = 1
        ∧ (processUpdate httpOk s u).sent.length = 1)
    ∧ (∀ (httpOk : Bool) (s : BotState) (u : TUpdate) (m : TMessage),
        u.message = some m → m.chat_id ≠ s.chat_id →
        (processUpdate httpOk s u).invocations = 0
        ∧ (processUpdate httpOk s u).sent = []
        ∧ (processUpdate httpOk s u).state
            = { s with command_offset := u.update_id + 1 }) := by
  constructor
  · intro httpOk s u m dr hm hchat htext hdc
    exact processUpdate_open_auth httpOk s u m dr hm hchat htext hdc
  · intro httpOk s u m hm hchat
    exact processUpdate_unauthorized httpOk s u m hm hchat

def wBotC : BotState :=
  { bot_token := "token", chat_id := "7", enabled := true, command_offset := 0,
    running := true, threadAlive := true,
    door_controller := some (Except.ok { success := true, message := "ok" }) }

def wMsgOpen : TMessage := { chat_id := "7", text := "/open" }

def wMsgBad : TMessage := { chat_id := "8", text := "/open" }

def wUpdOpen : TUpdate := { update_id := 5, message := some wMsgOpen }

def wUpdBad : TUpdate := { update_id := 6, message := some wMsgBad }

theorem open_command_authorization_witness :
    (processUpdate true wBotC wUpdOpen).invocations = 1
    ∧ (processUpdate true wBotC wUpdOpen).sent.length = 1
    ∧ (processUpdate true wBotC wUpdBad).invocations = 0
    ∧ (processUpdate true wBotC wUpdBad).sent = [] := by
  obtain ⟨h1, h2⟩ := open_command_authorization.1 true wBotC wUpdOpen wMsgOpen
    (Except.ok { success := true, message := "ok" }) rfl rfl rfl rfl
  obtain ⟨h3, h4, _⟩ := open_command_authorization.2 true wBotC wUpdBad wMsgBad
    rfl (by decide)
  exact ⟨h1, h2, h3, h4⟩

theorem send_message_eq (s : BotState) (httpOk : Bool) :
    send_message s httpOk = (s.enabled && is_configured s && httpOk) := by
  unfold send_message
  cases he : s.enabled <;> cases hc : is_configured s <;> simp [he, hc]

theorem handle_command_snd_enabled (s : BotState) (b : Bool) (cmd : String) :
    (handle_command { s with enabled := b } cmd).2 = (handle_command s cmd).2 := by
  unfold handle_command
  dsimp only
  split_ifs with h1 h2 h3 h4
  · cases s.door_controller with
    | none => rfl
    | some outcome =>
      cases outcome with
      | ok r => cases r.success <;> rfl
      | error e => rfl
  · rfl
  · rfl
  · rfl
  · rfl

/-- C9: running the per-update handler in a state that differs only in the
    enabled flag yields the same door-controller invocation count, the same
    cursor, and the same list of attempted replies; only the delivery bit of
    each reply depends on enabled (it equals enabled AND configured AND the
    HTTP outcome); in particular an authorized /open with an injected
    callback invokes it exactly once whether enabled is true or false. -/
theorem enabled_noninterference :
    ∀ (httpOk b : Bool) (s : BotState) (u : TUpdate),
      (processUpdate httpOk { s with enabled := b } u).invocations
          = (processUpdate httpOk s u).invocations
      ∧ (processUpdate httpOk { s with enabled := b } u).state.command_offset
          = (processUpdate httpOk s u).state.command_offset
      ∧ (processUpdate httpOk { s with enabled := b } u).sent.length
          = (processUpdate httpOk s u).sent.length
      ∧ (∀ p ∈ (processUpdate httpOk { s with enabled := b } u).sent,
          p.2 = (b && is_configured s && httpOk))
      ∧ (∀ (m : TMessage) (dr : Except String DoorResult),
          u.message = some m → m.chat_id = s.chat_id → m.text = "/open" →
          s.door_controller = some dr →
          (processUpdate httpOk { s with enabled := b } u).invocations = 1
          ∧ (processUpdate httpOk s u).invocations = 1) := by
  intro httpOk b s u
  have core :
      (processUpdate httpOk { s with enabled := b } u).invocations
          = (processUpdate httpOk s u).invocations
      ∧ (processUpdate httpOk { s with enabled := b } u).state.command_offset
          = (processUpdate httpOk s u).state.command_offset
      ∧ (processUpdate httpOk { s with enabled := b } u).sent.length
          = (processUpdate httpOk s u).sent.length
      ∧ (∀ p ∈ (processUpdate httpOk { s with enabled := b } u).sent,
          p.2 = (b && is_configured s && httpOk)) := by
    unfold processUpdate
    cases u.message with
    | none => exact ⟨rfl, rfl, rfl, by simp⟩
    | some m =>
      dsimp only
      split_ifs with hchat hsl
      · refine ⟨?_, rfl, rfl, ?_⟩
        · exact handle_command_snd_enabled
            { s with command_offset := u.update_id + 1 } b m.text
        · intro p hp
          simp only [List.mem_singleton] at hp
          subst hp
          exact send_message_eq
            { s with enabled := b, command_offset := u.update_id + 1 } httpOk
      · exact ⟨rfl, rfl, rfl, by simp⟩
      · exact ⟨rfl, rfl, rfl, by simp⟩
  refine ⟨core.1, core.2.1, core.2.2.1, core.2.2.2, ?_⟩
  intro m dr hm hchat htext hdc
  constructor
  · exact (processUpdate_open_auth httpOk { s with enabled := b } u m dr hm
      hchat htext hdc).1
  · exact (processUpdate_open_auth httpOk s u m dr hm hchat htext hdc).1

theorem enabled_noninterference_witness :
    (processUpdate true { wBotC with enabled := false } wUpdOpen).invocations = 1
    ∧ (processUpdate true wBotC wUpdOpen).invocations = 1 := by
  exact (enabled_noninterference true false wBotC wUpdOpen).2.2.2.2 wMsgOpen
    (Except.ok { success := true, message := "ok" }) rfl rfl rfl rfl


/-! ## Listener lifecycle and configuration update (telegram_bot.py:
    start_command_listener / stop_command_listener / update_config).
    `threadAlive` embeds `self.command_thread and self.command_thread.is_alive()`:
    stop_command_listener only clears the cooperative running flag, while the
    worker thread itself dies asynchronously, at its next loop-boundary check
    of that flag — which, inside a long poll, can be up to 30-35 seconds
    later.  Whether the worker has already exited when the 1-second pause of
    update_config ends is therefore a real-time race, passed in explicitly as
    `workerExited`. -/

def start_command_listener (s : BotState) : BotState :=
  if s.threadAlive then s
  else if !(is_configured s) then s
  else { s with running := true, threadAlive := true }

def stop_command_listener (s : BotState) : BotState :=
  { s with running := false }

/-- The time.sleep(1) between stop and start: the old worker thread has
    exited by the end of the pause only if its long poll happened to return
    and the loop re-checked the running flag within that second. -/
def pauseDrain (workerExited : Bool) (s : BotState) : BotState :=
  if workerExited then { s with threadAlive := false } else s

/-- The "if bot_token is not None and bot_token != self.bot_token" step of
    update_config; the Bool records whether restart_needed was set. -/
def applyTokenUpdate (s : BotState) : Option String → BotState × Bool
  | some t => if t ≠ s.bot_token then ({ s with bot_token := t }, true)
              else (s, false)
  | none => (s, false)

/-- The "if chat_id is not None and chat_id != self.chat_id" step. -/
def applyChatUpdate (s : BotState) : Option String → BotState × Bool
  | some c => if c ≠ s.chat_id then ({ s with chat_id := c }, true)
              else (s, false)
  | none => (s, false)

/-- The "if enabled is not None" step, which never sets restart_needed. -/
def applyEnabledUpdate (s : BotState) : Option Bool → BotState
  | some e => { s with enabled := e }
  | none => s

/-- update_config: returns the new state and whether the stop-pause-start
    cycle was entered. -/
def update_config (s : BotState) (bot_token : Option String)
    (chat_id : Option String) (enabled : Option Bool)
    (workerExited : Bool) : BotState × Bool :=
  let st1 := applyTokenUpdate s bot_token
  let st2 := applyChatUpdate st1.1 chat_id
  let s2 := applyEnabledUpdate st2.1 enabled
  if (st1.2 || st2.2) && s2.running then
    (start_command_listener (pauseDrain workerExited (stop_command_listener s2)),
      true)
  else (s2, false)

theorem applyTokenUpdate_offset (s : BotState) (tok : Option String) :
    (applyTokenUpdate s tok).1.command_offset = s.command_offset := by
  cases tok with
  | none => rfl
  | some t =>
    by_cases h : t = s.bot_token
    · simp [applyTokenUpdate, h]
    · simp [applyTokenUpdate, h]

theorem applyChatUpdate_offset (s : BotState) (chat : Option String) :
    (applyChatUpdate s chat).1.command_offset = s.command_offset := by
  cases chat with
  | none => rfl
  | some c =>
    by_cases h : c = s.chat_id
    · simp [applyChatUpdate, h]
    · simp [applyChatUpdate, h]

theorem applyEnabledUpdate_offset (s : BotState) (en : Option Bool) :
    (applyEnabledUpdate s en).command_offset = s.command_offset := by
  cases en <;> rfl

theorem start_command_listener_offset (s : BotState) :
    (start_command_listener s).command_offset = s.command_offset := by
  unfold start_command_listener
  split_ifs <;> rfl

theorem pauseDrain_offset (w : Bool) (s : BotState) :
    (pauseDrain w s).command_offset = s.command_offset := by
  unfold pauseDrain
  split <;> rfl

/-- The cursor is never written by update_config, whichever path is taken —
    the part of the configuration-update claim the code does satisfy. -/
theorem update_config_offset (s : BotState) (tok chat : Option String)
    (en : Option Bool) (w : Bool) :
    (update_config s tok chat en w).1.command_offset = s.command_offset := by
  unfold update_config
  dsimp only
  split
  · rw [start_command_listener_offset, pauseDrain_offset]
    show (applyEnabledUpdate (applyChatUpdate (applyTokenUpdate s tok).1 chat).1
        en).command_offset = s.command_offset
    rw [applyEnabledUpdate_offset, applyChatUpdate_offset, applyTokenUpdate_offset]
  · rw [applyEnabledUpdate_offset, applyChatUpdate_offset, applyTokenUpdate_offset]

def wBotLive : BotState :=
  { bot_token := "token", chat_id := "7", enabled := true, command_offset := 40,
    running := true, threadAlive := true, door_controller := none }

/-- C7: the code does not restart the listener after a token change when the
    stopped worker is still blocked in its 30-35 second long poll at the end
    of the 1-second pause — the typical case, since stop only flips the
    cooperative flag and never joins the thread.  At that input the restart
    cycle is entered (.2 = true) yet start_command_listener sees the old
    thread alive and returns without setting running, so the listener ends up
    stopped, against the claim that the loop is started again with the new
    configuration.  The restart succeeds only in the race where the worker
    exited during the pause; the cursor is preserved and an enabled-only
    update never restarts, as the claim also states. -/
theorem update_config_restart_bug :
    (update_config wBotLive (some "token2") none none false).2 = true
    ∧ (update_config wBotLive (some "token2") none none false).1.running = false
    ∧ (update_config wBotLive (some "token2") none none false).1.threadAlive = true
    ∧ (update_config wBotLive (some "token2") none none false).1.command_offset
        = wBotLive.command_offset
    ∧ (update_config wBotLive (some "token2") none none true).1.running = true
    ∧ (update_config wBotLive none none (some false) false).2 = false
    ∧ (update_config wBotLive none none (some false) false).1.running = true := by
  decide

/-! ## Recognition pipeline (app.py: FaceRecognitionService.recognize_face,
    AccessRecordManager.create_access_record / create_notification,
    process_face_recognition_async).  DeepFace.find is an external
    collaborator: its outcome is either the list of matched identity paths
    (best first, empty = no match) or the exception it raised.  uuid4 /
    datetime.now are injected as explicit id and timestamp arguments. -/

/-- Python os.path.basename for the slash-separated paths the app builds. -/
def basename (p : String) : String := (p.splitOn "/").getLastD p

/-- Python os.path.splitext(...)[0]: strip the last extension. -/
def splitext_root (p : String) : String :=
  let parts := p.splitOn "."
  if parts.length ≤ 1 then p else String.intercalate "." parts.dropLast

structure RecognitionResult where
  access_granted : Bool
  recognized_person : Option String
  status : String
  error : Option String := none
  deriving Repr, DecidableEq

/-- recognize_face: the try branch inspects the DeepFace result; the except
    branch converts any exception into a denied/error verdict.  The Lean
    function is total: every exception value maps to a normal result, which
    is exactly the "never propagates" behaviour of the try/except. -/
def recognize_face (outcome : Except String (List String)) : RecognitionResult :=
  match outcome with
  | Except.ok found =>
    let match_found := !found.isEmpty
    { access_granted := match_found
      recognized_person :=
        found.head?.map (fun best => splitext_root (basename best))
      status := if match_found then "granted" else "denied"
      error := none }
  | Except.error e =>
    { access_granted := false
      recognized_person := none
      status := "error"
      error := some e }

def create_access_record (recId now filename : String)
    (rr : RecognitionResult) (method : String) : AccessRecord :=
  { id := recId
    timestamp := now
    filename := filename
    image_url := "/uploads/" ++ filename
    access_granted := rr.access_granted
    status := rr.status
    method := method
    recognized_person := rr.recognized_person
    recognition_result :=
      if rr.access_granted then "Persoană recunoscută" else "Persoană necunoscută"
    manual_grant_timestamp := none }

def create_notification (notifId : String) (r : AccessRecord) : Notification :=
  { id := notifId
    timestamp := r.timestamp
    filename := r.filename
    image_url := r.image_url
    access_granted := r.access_granted
    status := r.status
    recognition_result := r.recognition_result
    method := r.method }

/-- Environment of one pipeline run: the external outcomes and the fresh
    identifiers the run consumes. -/
structure PipelineEnv where
  find_outcome : Except String (List String)
  recId : String
  notifId : String
  now : String
  telegram_ok : Bool
  door_result : DoorResult
  deriving Repr

inductive EventType where
  | new_visitor
  | stream_face_recognized
  | stream_face_denied
  | face_recognition_complete
  deriving Repr, DecidableEq

structure PipelineResult where
  record : AccessRecord
  notification : Notification
  access_history : List AccessRecord
  notifications : List Notification
  event_type : EventType
  door_opened : Bool
  deriving Repr

/-- process_face_recognition_async, one run: recognize, build and insert the
    record, derive and insert the notification, best-effort Telegram send
    (outcome ignored), best-effort door opening when granted, classify the
    event type from the method tag, publish.  Total: the async wrapper and
    recognize_face catch every failure, so every input yields a result. -/
def process_face_recognition_async (env : PipelineEnv)
    (history : List AccessRecord) (notifs : List Notification)
    (image_path method : String) : PipelineResult :=
  let rr := recognize_face env.find_outcome
  let filename := basename image_path
  let record := create_access_record env.recId env.now filename rr method
  let history := add_access_record history record
  let notification := create_notification env.notifId record
  let notifs := add_notification notifs notification
  let door_opened := rr.access_granted && env.door_result.success
  let event_type :=
    if method = "automatic" then EventType.new_visitor
    else if method = "stream_detection" then
      (if rr.access_granted then EventType.stream_face_recognized
       else EventType.stream_face_denied)
    else EventType.face_recognition_complete
  { record := record
    notification := notification
    access_history := history
    notifications := notifs
    event_type := event_type
    door_opened := door_opened }

theorem insertFront_head {α : Type} (cap : Nat) (hcap : 1 ≤ cap)
    (log : List α) (e : α) : (insertFront cap log e).head? = some e := by
  unfold insertFront
  dsimp only
  split
  · rename_i h
    cases log with
    | nil =>
      simp at h
      omega
    | cons x xs => simp
  · simp

/-- C3: when the external recognizer raises (any exception message e), the
    pipeline still completes and produces an access record and notification
    with access_granted = false and status = "error"; the record is inserted
    at the head of the access log and the door stays shut.  No error reaches
    the caller: the pipeline is a total function of the failure. -/
theorem recognizer_failure_degrades :
    ∀ (e recId notifId now : String) (tg : Bool) (door : DoorResult)
      (history : List AccessRecord) (notifs : List Notification)
      (image_path method : String),
      (process_face_recognition_async
          { find_outcome := Except.error e, recId := recId, notifId := notifId,
            now := now, telegram_ok := tg, door_result := door }
          history notifs image_path method).record.access_granted = false
      ∧ (process_face_recognition_async
          { find_outcome := Except.error e, recId := recId, notifId := notifId,
            now := now, telegram_ok := tg, door_result := door }
          history notifs image_path method).record.status = "error"
      ∧ (process_face_recognition_async
          { find_outcome := Except.error e, recId := recId, notifId := notifId,
            now := now, telegram_ok := tg, door_result := door }
          history notifs image_path method).notification.access_granted = false
      ∧ (process_face_recognition_async
          { find_outcome := Except.error e, recId := recId, notifId := notifId,
            now := now, telegram_ok := tg, door_result := door }
          history notifs image_path method).notification.status = "error"
      ∧ (process_face_recognition_async
          { find_outcome := Except.error e, recId := recId, notifId := notifId,
            now := now, telegram_ok := tg, door_result := door }
          history notifs image_path method).access_history.head?
        = some (process_face_recognition_async
          { find_outcome := Except.error e, recId := recId, notifId := notifId,
            now := now, telegram_ok := tg, door_result := door }
          history notifs image_path method).record
      ∧ (process_face_recognition_async
          { find_outcome := Except.error e, recId := recId, notifId := notifId,
            now := now, telegram_ok := tg, door_result := door }
          history notifs image_path method).door_opened = false := by
  intro e recId notifId now tg door history notifs image_path method
  simp only [process_face_recognition_async, recognize_face, create_access_record,
    create_notification]
  refine ⟨trivial, trivial, trivial, trivial, ?_, by simp⟩
  exact insertFront_head 50 (by decide) history _

/-! ## Upload endpoint (app.py: upload route).  The request's payload is
    written to disk (filesystem side effect, outside the embedding), the
    pipeline is scheduled asynchronously, and the HTTP response is built
    immediately. -/

structure UploadResponse where
  status : String
  message : String
  filename : String
  access_granted : Bool
  deriving Repr, DecidableEq

/-- upload: returns the immediate HTTP response together with the result the
    scheduled background pipeline eventually produces. -/
def upload (timestamp : String) (env : PipelineEnv)
    (history : List AccessRecord) (notifs : List Notification) :
    UploadResponse × PipelineResult :=
  let filename := "visitor_" ++ timestamp ++ ".jpg"
  let pipeline := process_face_recognition_async env history notifs
    ("uploads/" ++ filename) "automatic"
  ({ status := "processing"
     message := "Image uploaded, processing face recognition..."
     filename := filename
     access_granted := false }, pipeline)

/-- C10: the immediate HTTP response of the upload endpoint always carries
    access_granted = false and status = "processing", for every timestamp
    and every outcome the asynchronously scheduled recognition later
    produces. -/
theorem upload_response_fixed :
    ∀ (timestamp : String) (env : PipelineEnv)
      (history : List AccessRecord) (notifs : List Notification),
      (upload timestamp env history notifs).1.access_granted = false
      ∧ (upload timestamp env history notifs).1.status = "processing"
      ∧ (upload timestamp env history notifs).1.filename
          = "visitor_" ++ timestamp ++ ".jpg" := by
  intro timestamp env history notifs
  exact ⟨rfl, rfl, rfl⟩

/-! ## Event broadcast hub (app.py: sse_clients / notify_clients / the sse
    route).  A subscriber's queue object is addressed by an identity id:
    `clients` is the sse_clients list (queue ids in list order), `queues`
    gives each queue object's current contents, `received` the events a
    client's generator has emitted to its connection.  subscribe appends a
    fresh empty queue object; publish (notify_clients) appends the event to
    every queue currently in the list; consume is one delivery tick of the
    event_stream loop — the generator pops the oldest entry of its own queue
    object, whether or not that object is still in the list; unsubscribe is
    the GeneratorExit cleanup `if client_queue in sse_clients:
    sse_clients.remove(client_queue)`, which — like Python list.remove —
    deletes the first queue in the list whose CONTENTS equal the
    disconnecting client's queue, not necessarily the client's own object. -/

structure Hub where
  clients : List Nat
  queues : Nat → List String
  received : Nat → List String

inductive HubOp where
  | subscribe (i : Nat)
  | publish (m : String)
  | consume (i : Nat)
  | unsubscribe (i : Nat)
  deriving Repr, DecidableEq

/-- notify_clients: iterate the client list, appending the event to each
    registered queue object. -/
def publishAll (m : String) (clients : List Nat) (qs : Nat → List String) :
    Nat → List String :=
  clients.foldl (fun qs j => fun k => if k = j then qs k ++ [m] else qs k) qs

/-- Python list.remove by value: drop the first id whose queue contents
    equal v; no-op when none does, matching the `in` guard before remove. -/
def removeFirstValueEq (qs : Nat → List String) (v : List String) :
    List Nat → List Nat
  | [] => []
  | j :: rest =>
    if qs j = v then rest else j :: removeFirstValueEq qs v rest

def hubStep (s : Hub) : HubOp → Hub
  | HubOp.subscribe i =>
    { s with clients := s.clients ++ [i]
             queues := fun j => if j = i then [] else s.queues j }
  | HubOp.publish m =>
    { s with queues := publishAll m s.clients s.queues }
  | HubOp.consume i =>
    match s.queues i with
    | msg :: rest =>
      { s with
        queues := fun k => if k = i then rest else s.queues k
        received := fun k => if k = i then s.received k ++ [msg]
          else s.received k }
    | [] => s
  | HubOp.unsubscribe i =>
    { s with clients := removeFirstValueEq s.queues (s.queues i) s.clients }

def hubRun (s : Hub) : List HubOp → Hub
  | [] => s
  | op :: ops => hubRun (hubStep s op) ops

def wHub : Hub :=
  { clients := [], queues := fun _ => [], received := fun _ => [] }

/-- C6: the code violates the claim.  Two dashboards subscribe (queue ids 0
    then 1), both inboxes still empty; client 1 disconnects, and the
    value-based removal deletes client 0's queue — the first empty queue in
    the list — instead of client 1's own.  A subsequent publish of "x"
    therefore lands in the disconnected inbox 1 and never reaches the
    still-connected subscriber 0, whose next delivery tick finds nothing: so
    a subscriber does not receive an event published after its subscription,
    and an unsubscribed inbox does receive a further event, while the spec's
    intent — each inbox owned by its own connection's lifecycle and removed
    when that connection closes — is stated explicitly in the design. -/
theorem hub_remove_by_value_bug :
    (hubRun wHub [HubOp.subscribe 0, HubOp.subscribe 1, HubOp.unsubscribe 1,
        HubOp.publish "x", HubOp.consume 0]).clients = [1]
    ∧ (hubRun wHub [HubOp.subscribe 0, HubOp.subscribe 1, HubOp.unsubscribe 1,
        HubOp.publish "x", HubOp.consume 0]).queues 0 = []
    ∧ (hubRun wHub [HubOp.subscribe 0, HubOp.subscribe 1, HubOp.unsubscribe 1,
        HubOp.publish "x", HubOp.consume 0]).received 0 = []
    ∧ (hubRun wHub [HubOp.subscribe 0, HubOp.subscribe 1, HubOp.unsubscribe 1,
        HubOp.publish "x", HubOp.consume 0]).queues 1 = ["x"] := by
  decide

/-! ## Snapshot copies (app.py: get_notifications and get_access_history
    return `list.copy()` under the lock; grant_access mutates entry dicts in
    place).  Python's aliasing is made explicit with two heap levels: list
    cells hold sequences of entry ADDRESSES — the live log is the cell at
    address 0 — and a separate entry heap maps each address to that dict's
    current contents.  `.copy()` is a SHALLOW copy: it allocates a fresh
    list cell holding the same addresses.  An insertion allocates a fresh
    entry at the next free address and prepends that address to the live
    list with capacity eviction; the first-match update of grant_access
    rewrites the matched entry in the entry heap — in place, visible through
    every list cell that still holds its address. -/

def readAt {α : Type} (h : List (List α)) (a : Nat) : List α := h.getD a []

theorem readAt_set_zero_ne {α : Type} (h : List (List α)) (v : List α)
    (a : Nat) (ha : a ≠ 0) : readAt (h.set 0 v) a = readAt h a := by
  cases h with
  | nil => rfl
  | cons x t =>
    cases a with
    | zero => exact absurd rfl ha
    | succ n => rfl

theorem readAt_append_self {α : Type} :
    ∀ (h : List (List α)) (c : List α), readAt (h ++ [c]) h.length = c := by
  intro h
  induction h with
  | nil => intro c; rfl
  | cons x t ih => intro c; exact ih c

structure LogHeap (α : Type) where
  lists : List (List Nat)
  entries : Nat → α
  next : Nat

def readAddrs {α : Type} (h : LogHeap α) (a : Nat) : List Nat := readAt h.lists a

/-- What a holder of list cell a observes: the current contents of the
    entries its addresses point to. -/
def derefAt {α : Type} (h : LogHeap α) (a : Nat) : List α :=
  (readAddrs h a).map h.entries

/-- snapshot / list.copy(): allocate a fresh list cell sharing the live
    log's entry addresses and return the heap with its address. -/
def shallowSnapshot {α : Type} (h : LogHeap α) : LogHeap α × Nat :=
  ({ h with lists := h.lists ++ [readAddrs h 0] }, h.lists.length)

/-- In-place rewrite of the first entry (scanning the given addresses in
    order) that satisfies p — the dict mutation the grant_access loop
    performs on its first match. -/
def updateFirstAddr {α : Type} (ent : Nat → α) (p : α → Bool) (f : α → α) :
    List Nat → (Nat → α)
  | [] => ent
  | a :: rest =>
    if p (ent a) then fun b => if b = a then f (ent a) else ent b
    else updateFirstAddr ent p f rest

/-- The two in-place mutations the logs support. -/
inductive EntryMut (α : Type) where
  | insertE (cap : Nat) (v : α)
  | updateM (p : α → Bool) (f : α → α)

def isInsert {α : Type} : EntryMut α → Bool
  | EntryMut.insertE _ _ => true
  | EntryMut.updateM _ _ => false

def applyEntryMut {α : Type} (h : LogHeap α) : EntryMut α → LogHeap α
  | EntryMut.insertE cap v =>
    { lists := h.lists.set 0 (insertFront cap (readAddrs h 0) h.next)
      entries := fun a => if a = h.next then v else h.entries a
      next := h.next + 1 }
  | EntryMut.updateM p f =>
    { lists := h.lists
      entries := updateFirstAddr h.entries p f (readAddrs h 0)
      next := h.next }

def applyEntryMuts {α : Type} (h : LogHeap α) : List (EntryMut α) → LogHeap α
  | [] => h
  | m :: ms => applyEntryMuts (applyEntryMut h m) ms

def wHeap : LogHeap AccessRecord :=
  { lists := [[0]], entries := fun _ => sampleRecord, next := 1 }

/-- C8 counterexample: the claim as stated is false of the code.  The live
    log holds one denied record; a snapshot (shallow copy) is taken; then a
    manual grant (updateMatching) rewrites the shared entry in place.  The
    entries observed through the held snapshot now differ from what they
    were at snapshot time: a mutation performed after the snapshot did
    affect the sequence of entries the caller obtained. -/
theorem snapshot_shallow_counterexample :
    derefAt
      (applyEntryMut (shallowSnapshot wHeap).1
        (EntryMut.updateM (fun r => r.filename == "visitor_1.jpg")
          (grantRecord "2024-05-05T10:00:00")))
      (shallowSnapshot wHeap).2
    ≠ derefAt wHeap 0 := by
  decide

theorem readAddrs_applyEntryMut {α : Type} (h : LogHeap α) (m : EntryMut α)
    (a : Nat) (ha : a ≠ 0) :
    readAddrs (applyEntryMut h m) a = readAddrs h a := by
  cases m with
  | insertE cap v => exact readAt_set_zero_ne h.lists _ a ha
  | updateM p f => rfl

theorem readAddrs_applyEntryMuts {α : Type} :
    ∀ (ms : List (EntryMut α)) (h : LogHeap α) (a : Nat), a ≠ 0 →
      readAddrs (applyEntryMuts h ms) a = readAddrs h a := by
  intro ms
  induction ms with
  | nil => intro h a _; rfl
  | cons m ms ih =>
    intro h a ha
    show readAddrs (applyEntryMuts (applyEntryMut h m) ms) a = readAddrs h a
    rw [ih (applyEntryMut h m) a ha, readAddrs_applyEntryMut h m a ha]

theorem derefAt_insertOnly {α : Type} :
    ∀ (ms : List (EntryMut α)) (h : LogHeap α) (a : Nat), a ≠ 0 →
      (∀ m ∈ ms, isInsert m = true) →
      (∀ x ∈ readAddrs h a, x < h.next) →
      derefAt (applyEntryMuts h ms) a = derefAt h a := by
  intro ms
  induction ms with
  | nil => intro h a _ _ _; rfl
  | cons m ms ih =>
    intro h a ha hins hbound
    have hmi := hins m (List.mem_cons_self _ _)
    cases m with
    | updateM p f => simp [isInsert] at hmi
    | insertE cap v =>
      have haddr : readAddrs (applyEntryMut h (EntryMut.insertE cap v)) a
          = readAddrs h a := readAddrs_applyEntryMut h _ a ha
      have hbound2 :
          ∀ x ∈ readAddrs (applyEntryMut h (EntryMut.insertE cap v)) a,
            x < (applyEntryMut h (EntryMut.insertE cap v)).next := by
        intro x hx
        rw [haddr] at hx
        exact Nat.lt_succ_of_lt (hbound x hx)
      have hstep := ih (applyEntryMut h (EntryMut.insertE cap v)) a ha
        (fun n hn => hins n (List.mem_cons_of_mem _ hn)) hbound2
      show derefAt (applyEntryMuts (applyEntryMut h (EntryMut.insertE cap v)) ms) a
        = derefAt h a
      rw [hstep]
      unfold derefAt
      rw [haddr]
      apply List.map_congr_left
      intro x hx
      show (if x = h.next then v else h.entries x) = h.entries x
      rw [if_neg (Nat.ne_of_lt (hbound x hx))]

/-- C8 (amended): a snapshot is a shallow copy.  The address sequence the
    caller receives is never affected by any later mutation of the live log
    — insertions, evictions, or first-match updates — and the entry contents
    seen through the snapshot are unaffected by later insertions (fresh
    entries live at fresh addresses).  Only an updateMatching mutation of an
    entry shared with the snapshot is visible through it, as the
    counterexample shows; the HTTP endpoints avoid exposing that by
    serializing the copy before the log's lock is released. -/
theorem snapshot_shallow_spec :
    (∀ (α : Type) (h : LogHeap α) (ms : List (EntryMut α)), 0 < h.lists.length →
        readAddrs (applyEntryMuts (shallowSnapshot h).1 ms) (shallowSnapshot h).2
          = readAddrs h 0)
    ∧ (∀ (α : Type) (h : LogHeap α) (ms : List (EntryMut α)), 0 < h.lists.length →
        (∀ m ∈ ms, isInsert m = true) →
        (∀ x ∈ readAddrs h 0, x < h.next) →
        derefAt (applyEntryMuts (shallowSnapshot h).1 ms) (shallowSnapshot h).2
          = derefAt h 0) := by
  constructor
  · intro α h ms hlen
    have ha : h.lists.length ≠ 0 := Nat.pos_iff_ne_zero.mp hlen
    show readAddrs (applyEntryMuts (shallowSnapshot h).1 ms) h.lists.length
      = readAddrs h 0
    rw [readAddrs_applyEntryMuts ms (shallowSnapshot h).1 h.lists.length ha]
    show readAt (h.lists ++ [readAddrs h 0]) h.lists.length = readAddrs h 0
    exact readAt_append_self h.lists (readAddrs h 0)
  · intro α h ms hlen hins hbound
    have ha : h.lists.length ≠ 0 := Nat.pos_iff_ne_zero.mp hlen
    have hsnapaddr : readAddrs (shallowSnapshot h).1 h.lists.length
        = readAddrs h 0 := by
      show readAt (h.lists ++ [readAddrs h 0]) h.lists.length = readAddrs h 0
      exact readAt_append_self h.lists (readAddrs h 0)
    have hbound2 : ∀ x ∈ readAddrs (shallowSnapshot h).1 h.lists.length,
        x < (shallowSnapshot h).1.next := by
      intro x hx
      rw [hsnapaddr] at hx
      exact hbound x hx
    have hmain := derefAt_insertOnly ms (shallowSnapshot h).1 h.lists.length ha
      hins hbound2
    show derefAt (applyEntryMuts (shallowSnapshot h).1 ms) h.lists.length
      = derefAt h 0
    rw [hmain]
    unfold derefAt
    rw [hsnapaddr]
    rfl

theorem snapshot_shallow_spec_witness :
    readAddrs
        (applyEntryMuts (shallowSnapshot wHeap).1
          [EntryMut.insertE 50 sampleRecord])
        (shallowSnapshot wHeap).2
      = readAddrs wHeap 0
    ∧ derefAt
        (applyEntryMuts (shallowSnapshot wHeap).1
          [EntryMut.insertE 50 sampleRecord])
        (shallowSnapshot wHeap).2
      = derefAt wHeap 0 := by
  constructor
  · exact snapshot_shallow_spec.1 AccessRecord wHeap
      [EntryMut.insertE 50 sampleRecord] (by decide)
  · exact snapshot_shallow_spec.2 AccessRecord wHeap
      [EntryMut.insertE 50 sampleRecord] (by decide) (by decide) (by decide)
